import Mathlib

/-!
Verification of the `RockPaperScissors` FHEVM contract
(`contract RockPaperScissors is ZamaEthereumConfig`).

The contract is embedded shallowly:

* `uint8` / `uint256` values are `Nat` with explicit `% 256` where a
  narrowing cast occurs in the source;
* Solidity mappings are total functions with the zero value as default,
  exactly as in the EVM storage model;
* every external function becomes a Lean function returning
  `Except Err _`: a `require` failure is an `.error` (the transaction
  reverts, so the caller's state is unchanged — the failing call produces
  no successor state);
* the FHE precompile surface (`FHE.fromExternal`, `FHE.makePubliclyDecryptable`,
  `FHE.checkSignatures`, `abi.decode`, the `keccak256` entropy hash) is
  abstracted as a structure `Fhe` of uninterpreted functions, passed to
  each call: the contract only threads handles and proofs through.
-/

namespace RPS

/-- Move constant: `uint8 public constant ROCK = 1`. -/
def ROCK : Nat := 1

/-- Move constant: `uint8 public constant PAPER = 2`. -/
def PAPER : Nat := 2

/-- Move constant: `uint8 public constant SCISSORS = 3`. -/
def SCISSORS : Nat := 3

/-- Result constant: `uint8 public constant DRAW = 0`. -/
def DRAW : Nat := 0

/-- Result constant: `uint8 public constant WIN = 1`. -/
def WIN : Nat := 1

/-- Result constant: `uint8 public constant LOSS = 2`. -/
def LOSS : Nat := 2

/-- The `Game` struct of the contract. `encryptedPlayerMove : euint8` is an
opaque ciphertext handle, modelled as a `Nat`. -/
structure Game where
  player : Nat
  encryptedPlayerMove : Nat
  opponentMove : Nat
  createdAt : Nat
  isResolved : Bool
  result : Nat
  revealedPlayerMove : Nat
  resolveRequested : Bool
  deriving Repr, DecidableEq

/-- The `PlayerStats` struct of the contract. -/
structure PlayerStats where
  wins : Nat
  losses : Nat
  draws : Nat
  totalGames : Nat
  deriving Repr, DecidableEq

/-- The zero value of `Game`, read from any mapping slot never written. -/
def defaultGame : Game :=
  { player := 0, encryptedPlayerMove := 0, opponentMove := 0, createdAt := 0,
    isResolved := false, result := 0, revealedPlayerMove := 0, resolveRequested := false }

/-- The zero value of `PlayerStats`. -/
def defaultStats : PlayerStats :=
  { wins := 0, losses := 0, draws := 0, totalGames := 0 }

/-- The contract's storage: `gameIdCounter`, `games`, `playerActiveGame`,
`playerStats`. Mappings are total functions with zero defaults. -/
structure CState where
  gameIdCounter : Nat
  games : Nat → Game
  playerActiveGame : Nat → Nat
  playerStats : Nat → PlayerStats

/-- The abstracted FHE precompile surface plus `keccak256` entropy.
The contract never inspects ciphertexts, so these are uninterpreted. -/
structure Fhe where
  fromExternal : Nat → List Nat → Nat
  makePub : Nat → Nat
  checkSig : Nat → List Nat → List Nat → Bool
  decodeU8 : List Nat → Nat
  keccakEntropy : Nat → Nat → Nat → Nat → Nat

/-- The revert reasons (`require` messages) of the contract. -/
inductive Err where
  | PlayerAlreadyHasActiveGame
  | GameDoesNotExist
  | OnlyPlayerCanRequestResolve
  | GameAlreadyResolved
  | ResolveAlreadyRequested
  | MustRequestResolveFirst
  | InvalidPlayerMove
  | ProofVerificationFailed
  | NoActiveGameToCancel
  deriving Repr, DecidableEq

/-- State after the constructor: `gameIdCounter = 1`, all storage zero. -/
def initialState : CState :=
  { gameIdCounter := 1, games := fun _ => defaultGame,
    playerActiveGame := fun _ => 0, playerStats := fun _ => defaultStats }

/-- Function `generateRandomMove`: hashes `(block.timestamp, block.prevrandao,
gameIdCounter, msg.sender)` and returns `uint8((random % 3) + 1)`.
The final `% 256` is the narrowing `uint8` cast of the source. -/
def generateRandomMove (fhe : Fhe) (timestamp prevrandao counter sender : Nat) : Nat :=
  (fhe.keccakEntropy timestamp prevrandao counter sender % 3 + 1) % 256

/-- The `Game` record stored by `playGame` (lines 89-98): fresh fields,
the opponent move generated with the pre-increment counter. -/
def newGame (fhe : Fhe) (sender timestamp prevrandao encryptedMove : Nat)
    (proof : List Nat) (s : CState) : Game :=
  { player := sender,
    encryptedPlayerMove := fhe.fromExternal encryptedMove proof,
    opponentMove := generateRandomMove fhe timestamp prevrandao s.gameIdCounter sender,
    createdAt := timestamp,
    isResolved := false, result := 0, revealedPlayerMove := 0,
    resolveRequested := false }

/-- Storage after a successful `playGame`: counter bumped, new game stored
at the old counter value, sender's active slot set to the fresh id. -/
def playGameNext (fhe : Fhe) (sender timestamp prevrandao encryptedMove : Nat)
    (proof : List Nat) (s : CState) : CState :=
  { gameIdCounter := s.gameIdCounter + 1,
    games := Function.update s.games s.gameIdCounter
      (newGame fhe sender timestamp prevrandao encryptedMove proof s),
    playerActiveGame := Function.update s.playerActiveGame sender s.gameIdCounter,
    playerStats := s.playerStats }

/-- Function `playGame(encryptedMove, proof)`: requires no active game for the
sender, converts the external ciphertext, generates the opponent move
(before the counter is bumped: `generateRandomMove` reads `gameIdCounter`
on line 213, the post-increment is on line 87), stores the new `Game`,
sets `playerActiveGame[msg.sender]`, and returns the fresh id. -/
def playGame (fhe : Fhe) (sender timestamp prevrandao encryptedMove : Nat)
    (proof : List Nat) (s : CState) : Except Err (CState × Nat) :=
  if s.playerActiveGame sender = 0 then
    .ok (playGameNext fhe sender timestamp prevrandao encryptedMove proof s, s.gameIdCounter)
  else .error .PlayerAlreadyHasActiveGame

/-- Storage after a successful `requestResolve`: the game's
`resolveRequested` flag set, its ciphertext handle elevated. -/
def requestResolveNext (fhe : Fhe) (gameId : Nat) (s : CState) : CState :=
  { s with games := (Function.update s.games gameId
      { (s.games gameId) with
        resolveRequested := true,
        encryptedPlayerMove := fhe.makePub (s.games gameId).encryptedPlayerMove }) }

/-- Function `requestResolve(gameId)`: requires the game to exist
(`gameId < gameIdCounter`), sender to be the player, the game not resolved
and resolve not yet requested; sets `resolveRequested` and elevates the
ciphertext handle to publicly decryptable. -/
def requestResolve (fhe : Fhe) (sender gameId : Nat) (s : CState) : Except Err CState :=
  if gameId < s.gameIdCounter then
    let game := s.games gameId
    if game.player = sender then
      if game.isResolved then .error .GameAlreadyResolved
      else if game.resolveRequested then .error .ResolveAlreadyRequested
      else .ok (requestResolveNext fhe gameId s)
    else .error .OnlyPlayerCanRequestResolve
  else .error .GameDoesNotExist

/-- The stats update of `resolveGame` lines 169-177: `totalGames++` always,
then exactly one of `wins`/`losses`/`draws` depending on the result. -/
def recordStats (stats : PlayerStats) (result : Nat) : PlayerStats :=
  let stats1 := { stats with totalGames := stats.totalGames + 1 }
  if result = WIN then { stats1 with wins := stats1.wins + 1 }
  else if result = LOSS then { stats1 with losses := stats1.losses + 1 }
  else { stats1 with draws := stats1.draws + 1 }

/-- Function `determineWinner(playerMove, opponentMove)`: equal moves draw, the six
explicit ordered pairs decide win/loss, and a trailing `return DRAW`
catches everything else. -/
def determineWinner (playerMove opponentMove : Nat) : Nat :=
  if playerMove = opponentMove then DRAW
  else if playerMove = ROCK ∧ opponentMove = SCISSORS then WIN
  else if playerMove = SCISSORS ∧ opponentMove = ROCK then LOSS
  else if playerMove = PAPER ∧ opponentMove = ROCK then WIN
  else if playerMove = ROCK ∧ opponentMove = PAPER then LOSS
  else if playerMove = SCISSORS ∧ opponentMove = PAPER then WIN
  else if playerMove = PAPER ∧ opponentMove = SCISSORS then LOSS
  else DRAW

/-- Storage after a successful `resolveGame` (lines 161-180): the revealed
move and result stored, the game marked resolved, the player's stats
bumped by `recordStats`, the player's active slot cleared. -/
def resolveGameNext (fhe : Fhe) (gameId : Nat) (cleartexts : List Nat) (s : CState) : CState :=
  { s with
    games := (Function.update s.games gameId
      { (s.games gameId) with
        revealedPlayerMove := fhe.decodeU8 cleartexts,
        result := determineWinner (fhe.decodeU8 cleartexts) (s.games gameId).opponentMove,
        isResolved := true }),
    playerStats := Function.update s.playerStats (s.games gameId).player
      (recordStats (s.playerStats (s.games gameId).player)
        (determineWinner (fhe.decodeU8 cleartexts) (s.games gameId).opponentMove)),
    playerActiveGame := Function.update s.playerActiveGame (s.games gameId).player 0 }

/-- Function `resolveGame(gameId, cleartexts, decryptionProof)`: requires existence,
not resolved, resolve requested; `FHE.checkSignatures` reverts on a bad
proof (modelled as the `checkSig` test); decodes the cleartext move,
validates it is in `[ROCK, SCISSORS]`, stores the revealed move and the
result, marks resolved, updates the player's stats and clears
`playerActiveGame[game.player]`. -/
def resolveGame (fhe : Fhe) (gameId : Nat) (cleartexts decryptionProof : List Nat)
    (s : CState) : Except Err CState :=
  if gameId < s.gameIdCounter then
    let game := s.games gameId
    if game.isResolved then .error .GameAlreadyResolved
    else if game.resolveRequested then
      if fhe.checkSig game.encryptedPlayerMove cleartexts decryptionProof then
        if ROCK ≤ fhe.decodeU8 cleartexts ∧ fhe.decodeU8 cleartexts ≤ SCISSORS then
          .ok (resolveGameNext fhe gameId cleartexts s)
        else .error .InvalidPlayerMove
      else .error .ProofVerificationFailed
    else .error .MustRequestResolveFirst
  else .error .GameDoesNotExist

/-- Storage after a successful `cancelGame`: the indexed game marked
resolved with `result = DRAW` (no other game field touched, no stats
update), the sender's active slot cleared. -/
def cancelGameNext (sender : Nat) (s : CState) : CState :=
  { s with
    games := (Function.update s.games (s.playerActiveGame sender)
      { (s.games (s.playerActiveGame sender)) with isResolved := true, result := DRAW }),
    playerActiveGame := Function.update s.playerActiveGame sender 0 }

/-- Function `cancelGame()`: reads the sender's active game id, requires it nonzero
and the game not resolved; marks the game resolved with `result = DRAW`,
leaves stats untouched, and clears the sender's active-game slot. -/
def cancelGame (sender : Nat) (s : CState) : Except Err CState :=
  let gameId := s.playerActiveGame sender
  if gameId = 0 then .error .NoActiveGameToCancel
  else
    let game := s.games gameId
    if game.isResolved then .error .GameAlreadyResolved
    else .ok (cancelGameNext sender s)

/-- Function `getGame(gameId)`: requires `gameId < gameIdCounter`, then returns the
stored tuple (player, opponentMove, createdAt, isResolved, result,
revealedPlayerMove, resolveRequested). -/
def getGame (s : CState) (gameId : Nat) :
    Except Err (Nat × Nat × Nat × Bool × Nat × Nat × Bool) :=
  if gameId < s.gameIdCounter then
    let game := s.games gameId
    .ok (game.player, game.opponentMove, game.createdAt, game.isResolved,
         game.result, game.revealedPlayerMove, game.resolveRequested)
  else .error .GameDoesNotExist

/-- One successful externally-triggered state transition of the contract:
any of the four mutating entry points, with arbitrary call context and
arbitrary FHE environment. `msg.sender` is never the zero address in the
EVM (a transaction from `address(0)` cannot be produced), so the sender
of each call is required to be nonzero. -/
inductive Step : CState → CState → Prop
  | play (fhe : Fhe) (sender timestamp prevrandao encryptedMove : Nat)
      (proof : List Nat) (s s' : CState) (gameId : Nat) : sender ≠ 0 →
      playGame fhe sender timestamp prevrandao encryptedMove proof s = .ok (s', gameId) →
      Step s s'
  | request (fhe : Fhe) (sender gameId : Nat) (s s' : CState) : sender ≠ 0 →
      requestResolve fhe sender gameId s = .ok s' → Step s s'
  | resolve (fhe : Fhe) (gameId : Nat) (cleartexts decryptionProof : List Nat)
      (s s' : CState) :
      resolveGame fhe gameId cleartexts decryptionProof s = .ok s' → Step s s'
  | cancel (sender : Nat) (s s' : CState) : sender ≠ 0 →
      cancelGame sender s = .ok s' → Step s s'

/-- States reachable from the freshly-constructed contract. -/
inductive Reachable : CState → Prop
  | init : Reachable initialState
  | step {s s' : CState} : Reachable s → Step s s' → Reachable s'

/-- The inductive invariant of the contract storage, preserved by every
`Step` and used to settle the spec's lifecycle claims:
the counter starts at 1 and only grows; slot 0 and all slots at or above
the counter are untouched; every issued, non-resolved game is the one its
player's `playerActiveGame` entry points to; every nonzero
`playerActiveGame` entry points to an issued, non-resolved game of that
player; and a non-resolved game has no revealed move. -/
structure Inv (s : CState) : Prop where
  counter_pos : 0 < s.gameIdCounter
  game_zero : s.games 0 = defaultGame
  unissued : ∀ gid, s.gameIdCounter ≤ gid → s.games gid = defaultGame
  active_of_unresolved : ∀ gid, 1 ≤ gid → gid < s.gameIdCounter →
    (s.games gid).isResolved = false → s.playerActiveGame (s.games gid).player = gid
  active_valid : ∀ p, s.playerActiveGame p ≠ 0 →
    1 ≤ s.playerActiveGame p ∧ s.playerActiveGame p < s.gameIdCounter ∧
    (s.games (s.playerActiveGame p)).player = p ∧
    (s.games (s.playerActiveGame p)).isResolved = false
  unrevealed : ∀ gid, (s.games gid).isResolved = false →
    (s.games gid).revealedPlayerMove = 0

/-! ### A concrete FHE environment and a concrete game trace

Used to evaluate the contract on explicit inputs: player `7` creates a
game, requests resolution, and the game is resolved with cleartext move
`ROCK` against the generated opponent move. The environment treats a
nonempty proof as valid and an empty proof as invalid, and decodes the
head of the cleartext list. -/

def fhe0 : Fhe :=
  { fromExternal := fun handle _ => handle,
    makePub := fun handle => handle + 100,
    checkSig := fun _ _ proof => !proof.isEmpty,
    decodeU8 := fun cleartexts => cleartexts.headD 0,
    keccakEntropy := fun timestamp prevrandao counter sender =>
      timestamp + prevrandao + counter + sender }

/-- State after `playGame` by player `7` at timestamp `11`, prevrandao
`13`, ciphertext handle `9`: game `1` exists, opponent move
`(11 + 13 + 1 + 7) % 3 + 1 = 3` (SCISSORS). -/
def st1 : CState := playGameNext fhe0 7 11 13 9 [4] initialState

/-- State after player `7` then calls `requestResolve` on game `1`. -/
def st2 : CState := requestResolveNext fhe0 1 st1

/-- State after game `1` is resolved with cleartext move `ROCK`. -/
def st3 : CState := resolveGameNext fhe0 1 [1] st2

/-! ### Inversion lemmas for the four mutating entry points -/

lemma playGame_ok {fhe : Fhe} {sender timestamp prevrandao encryptedMove : Nat}
    {proof : List Nat} {s s' : CState} {gameId : Nat}
    (h : playGame fhe sender timestamp prevrandao encryptedMove proof s = .ok (s', gameId)) :
    s.playerActiveGame sender = 0 ∧
    s' = playGameNext fhe sender timestamp prevrandao encryptedMove proof s ∧
    gameId = s.gameIdCounter := by
  unfold playGame at h
  split at h
  · simp only [Except.ok.injEq, Prod.mk.injEq] at h
    exact ⟨by assumption, h.1.symm, h.2.symm⟩
  · simp at h

lemma requestResolve_ok {fhe : Fhe} {sender gameId : Nat} {s s' : CState}
    (h : requestResolve fhe sender gameId s = .ok s') :
    gameId < s.gameIdCounter ∧ (s.games gameId).player = sender ∧
    (s.games gameId).isResolved = false ∧ (s.games gameId).resolveRequested = false ∧
    s' = requestResolveNext fhe gameId s := by
  unfold requestResolve at h
  split at h
  · dsimp only at h
    split at h
    · split at h
      · simp at h
      · split at h
        · simp at h
        · simp only [Except.ok.injEq] at h
          refine ⟨by assumption, by assumption, ?_, ?_, h.symm⟩
          · simp only [Bool.not_eq_true] at *; assumption
          · simp only [Bool.not_eq_true] at *; assumption
    · simp at h
  · simp at h

lemma resolveGame_ok {fhe : Fhe} {gameId : Nat} {cleartexts decryptionProof : List Nat}
    {s s' : CState} (h : resolveGame fhe gameId cleartexts decryptionProof s = .ok s') :
    gameId < s.gameIdCounter ∧ (s.games gameId).isResolved = false ∧
    (s.games gameId).resolveRequested = true ∧
    fhe.checkSig (s.games gameId).encryptedPlayerMove cleartexts decryptionProof = true ∧
    ROCK ≤ fhe.decodeU8 cleartexts ∧ fhe.decodeU8 cleartexts ≤ SCISSORS ∧
    s' = resolveGameNext fhe gameId cleartexts s := by
  unfold resolveGame at h
  split at h
  · dsimp only at h
    split at h
    · simp at h
    · split at h
      · split at h
        · split at h
          · simp only [Except.ok.injEq] at h
            rename_i hlt hres hreq hsig hmv
            exact ⟨hlt, by simpa using hres, hreq, hsig, hmv.1, hmv.2, h.symm⟩
          · simp at h
        · simp at h
      · simp at h
  · simp at h

lemma cancelGame_ok {sender : Nat} {s s' : CState}
    (h : cancelGame sender s = .ok s') :
    s.playerActiveGame sender ≠ 0 ∧
    (s.games (s.playerActiveGame sender)).isResolved = false ∧
    s' = cancelGameNext sender s := by
  simp only [cancelGame] at h
  split at h
  · simp at h
  · split at h
    · simp at h
    · simp only [Except.ok.injEq] at h
      rename_i hne hres
      exact ⟨hne, by simpa using hres, h.symm⟩

/-! ### Evaluation of the concrete trace -/

lemma play_st1 : playGame fhe0 7 11 13 9 [4] initialState = .ok (st1, 1) := rfl

lemma request_st2 : requestResolve fhe0 7 1 st1 = .ok st2 := rfl

lemma resolve_st3 : resolveGame fhe0 1 [1] [9] st2 = .ok st3 := rfl

lemma reachable_st1 : Reachable st1 :=
  .step .init (.play fhe0 7 11 13 9 [4] initialState st1 1 (by decide) play_st1)

lemma reachable_st2 : Reachable st2 :=
  .step reachable_st1 (.request fhe0 7 1 st1 st2 (by decide) request_st2)

lemma reachable_st3 : Reachable st3 :=
  .step reachable_st2 (.resolve fhe0 1 [1] [9] st2 st3 resolve_st3)

/-! ### Preservation of the inductive invariant -/

lemma inv_init : Inv initialState := by
  refine ⟨Nat.one_pos, rfl, fun _ _ => rfl, ?_, ?_, ?_⟩
  · intro gid h1 h2
    simp only [initialState] at h2
    omega
  · intro p hp
    exact absurd rfl hp
  · intro gid _
    rfl

lemma inv_playGame {fhe : Fhe} {sender timestamp prevrandao encryptedMove : Nat}
    {proof : List Nat} {s s' : CState} {gameId : Nat} (hI : Inv s)
    (h : playGame fhe sender timestamp prevrandao encryptedMove proof s = .ok (s', gameId)) :
    Inv s' := by
  obtain ⟨hact, rfl, rfl⟩ := playGame_ok h
  have hc := hI.counter_pos
  refine ⟨?_, ?_, ?_, ?_, ?_, ?_⟩
  · simp only [playGameNext]
    omega
  · simp only [playGameNext]
    rw [Function.update_noteq (by omega)]
    exact hI.game_zero
  · intro gid hgid
    simp only [playGameNext] at hgid ⊢
    rw [Function.update_noteq (by omega)]
    exact hI.unissued gid (by omega)
  · intro gid h1 h2
    simp only [playGameNext] at h2 ⊢
    by_cases hg : gid = s.gameIdCounter
    · subst hg
      rw [Function.update_same]
      intro _
      simp only [newGame]
      rw [Function.update_same]
    · rw [Function.update_noteq hg]
      intro hres
      have hidx := hI.active_of_unresolved gid h1 (by omega) hres
      have hplne : (s.games gid).player ≠ sender := by
        intro he
        rw [he, hact] at hidx
        omega
      rw [Function.update_noteq hplne]
      exact hidx
  · intro p hp
    simp only [playGameNext] at hp ⊢
    by_cases hps : p = sender
    · subst hps
      rw [Function.update_same] at hp ⊢
      rw [Function.update_same]
      exact ⟨by omega, by omega, rfl, rfl⟩
    · rw [Function.update_noteq hps] at hp ⊢
      obtain ⟨b1, b2, b3, b4⟩ := hI.active_valid p hp
      rw [Function.update_noteq (by omega)]
      exact ⟨b1, by omega, b3, b4⟩
  · intro gid
    simp only [playGameNext]
    by_cases hg : gid = s.gameIdCounter
    · subst hg
      rw [Function.update_same]
      intro _
      rfl
    · rw [Function.update_noteq hg]
      exact hI.unrevealed gid

lemma inv_requestResolve {fhe : Fhe} {sender gameId : Nat} {s s' : CState}
    (hs0 : sender ≠ 0) (hI : Inv s)
    (h : requestResolve fhe sender gameId s = .ok s') : Inv s' := by
  obtain ⟨hlt, hpl, hres, hreq, rfl⟩ := requestResolve_ok h
  have hg0 : gameId ≠ 0 := by
    intro h0
    subst h0
    rw [hI.game_zero] at hpl
    exact hs0 hpl.symm
  refine ⟨hI.counter_pos, ?_, ?_, ?_, ?_, ?_⟩
  · simp only [requestResolveNext]
    rw [Function.update_noteq (Ne.symm hg0)]
    exact hI.game_zero
  · intro gid hgid
    simp only [requestResolveNext] at hgid ⊢
    rw [Function.update_noteq (by omega)]
    exact hI.unissued gid hgid
  · intro gid h1 h2
    simp only [requestResolveNext] at h2 ⊢
    by_cases hg : gid = gameId
    · subst hg
      rw [Function.update_same]
      intro _
      exact hI.active_of_unresolved gid h1 h2 hres
    · rw [Function.update_noteq hg]
      intro hr
      exact hI.active_of_unresolved gid h1 h2 hr
  · intro p hp
    simp only [requestResolveNext] at hp ⊢
    obtain ⟨b1, b2, b3, b4⟩ := hI.active_valid p hp
    by_cases hg : s.playerActiveGame p = gameId
    · rw [hg, Function.update_same]
      rw [hg] at b1 b2 b3 b4
      exact ⟨b1, b2, b3, b4⟩
    · rw [Function.update_noteq hg]
      exact ⟨b1, b2, b3, b4⟩
  · intro gid
    simp only [requestResolveNext]
    by_cases hg : gid = gameId
    · subst hg
      rw [Function.update_same]
      intro _
      exact hI.unrevealed gid hres
    · rw [Function.update_noteq hg]
      exact hI.unrevealed gid

lemma inv_resolveGame {fhe : Fhe} {gameId : Nat} {cleartexts decryptionProof : List Nat}
    {s s' : CState} (hI : Inv s)
    (h : resolveGame fhe gameId cleartexts decryptionProof s = .ok s') : Inv s' := by
  obtain ⟨hlt, hres, hreq, hsig, hm1, hm2, rfl⟩ := resolveGame_ok h
  have hg0 : gameId ≠ 0 := by
    intro h0
    subst h0
    rw [hI.game_zero] at hreq
    exact Bool.false_ne_true hreq
  have hidx : s.playerActiveGame (s.games gameId).player = gameId :=
    hI.active_of_unresolved gameId (by omega) hlt hres
  refine ⟨hI.counter_pos, ?_, ?_, ?_, ?_, ?_⟩
  · simp only [resolveGameNext]
    rw [Function.update_noteq (Ne.symm hg0)]
    exact hI.game_zero
  · intro gid hgid
    simp only [resolveGameNext] at hgid ⊢
    rw [Function.update_noteq (by omega)]
    exact hI.unissued gid hgid
  · intro gid h1 h2
    simp only [resolveGameNext] at h2 ⊢
    by_cases hg : gid = gameId
    · subst hg
      rw [Function.update_same]
      intro hr
      exact absurd hr (by simp)
    · rw [Function.update_noteq hg]
      intro hr
      have hidx2 := hI.active_of_unresolved gid h1 h2 hr
      have hplne : (s.games gid).player ≠ (s.games gameId).player := by
        intro he
        rw [he, hidx] at hidx2
        exact hg hidx2.symm
      rw [Function.update_noteq hplne]
      exact hidx2
  · intro p hp
    simp only [resolveGameNext] at hp ⊢
    by_cases hps : p = (s.games gameId).player
    · subst hps
      rw [Function.update_same] at hp
      exact absurd rfl hp
    · rw [Function.update_noteq hps] at hp ⊢
      obtain ⟨b1, b2, b3, b4⟩ := hI.active_valid p hp
      have hne : s.playerActiveGame p ≠ gameId := by
        intro he
        rw [he] at b3
        exact hps b3.symm
      rw [Function.update_noteq hne]
      exact ⟨b1, b2, b3, b4⟩
  · intro gid
    simp only [resolveGameNext]
    by_cases hg : gid = gameId
    · subst hg
      rw [Function.update_same]
      intro hr
      exact absurd hr (by simp)
    · rw [Function.update_noteq hg]
      exact hI.unrevealed gid

lemma inv_cancelGame {sender : Nat} {s s' : CState} (hI : Inv s)
    (h : cancelGame sender s = .ok s') : Inv s' := by
  obtain ⟨hne, hres, rfl⟩ := cancelGame_ok h
  obtain ⟨b1, b2, b3, b4⟩ := hI.active_valid sender hne
  refine ⟨hI.counter_pos, ?_, ?_, ?_, ?_, ?_⟩
  · simp only [cancelGameNext]
    rw [Function.update_noteq (by omega)]
    exact hI.game_zero
  · intro gid hgid
    simp only [cancelGameNext] at hgid ⊢
    rw [Function.update_noteq (by omega)]
    exact hI.unissued gid hgid
  · intro gid h1 h2
    simp only [cancelGameNext] at h2 ⊢
    by_cases hg : gid = s.playerActiveGame sender
    · subst hg
      rw [Function.update_same]
      intro hr
      exact absurd hr (by simp)
    · rw [Function.update_noteq hg]
      intro hr
      have hidx2 := hI.active_of_unresolved gid h1 h2 hr
      have hplne : (s.games gid).player ≠ sender := by
        intro he
        rw [he] at hidx2
        exact hg hidx2.symm
      rw [Function.update_noteq hplne]
      exact hidx2
  · intro p hp
    simp only [cancelGameNext] at hp ⊢
    by_cases hps : p = sender
    · subst hps
      rw [Function.update_same] at hp
      exact absurd rfl hp
    · rw [Function.update_noteq hps] at hp ⊢
      obtain ⟨c1, c2, c3, c4⟩ := hI.active_valid p hp
      have hneq : s.playerActiveGame p ≠ s.playerActiveGame sender := by
        intro he
        rw [he] at c3
        rw [c3] at b3
        exact hps b3
      rw [Function.update_noteq hneq]
      exact ⟨c1, c2, c3, c4⟩
  · intro gid
    simp only [cancelGameNext]
    by_cases hg : gid = s.playerActiveGame sender
    · subst hg
      rw [Function.update_same]
      intro hr
      exact absurd hr (by simp)
    · rw [Function.update_noteq hg]
      exact hI.unrevealed gid

lemma inv_step {s s' : CState} (hI : Inv s) (h : Step s s') : Inv s' := by
  cases h with
  | play fhe sender timestamp prevrandao encryptedMove proof s s' gameId hs0 hok =>
      exact inv_playGame hI hok
  | request fhe sender gameId s s' hs0 hok =>
      exact inv_requestResolve hs0 hI hok
  | resolve fhe gameId cleartexts decryptionProof s s' hok =>
      exact inv_resolveGame hI hok
  | cancel sender s s' hs0 hok =>
      exact inv_cancelGame hI hok

lemma inv_reachable {s : CState} (h : Reachable s) : Inv s := by
  induction h with
  | init => exact inv_init
  | step _ hstep ih => exact inv_step ih hstep

/-! ### Claim theorems -/

/-- C2: over the 9 pairs of legal moves, `determineWinner` returns
exactly the fixed table: equal moves draw; (1,3), (2,1), (3,2) win;
(3,1), (1,2), (2,3) lose — Rock beats Scissors, Paper beats Rock,
Scissors beats Paper, from the player's perspective. -/
theorem determineWinner_table :
    determineWinner 1 1 = DRAW ∧ determineWinner 2 2 = DRAW ∧ determineWinner 3 3 = DRAW ∧
    determineWinner 1 3 = WIN ∧ determineWinner 2 1 = WIN ∧ determineWinner 3 2 = WIN ∧
    determineWinner 3 1 = LOSS ∧ determineWinner 1 2 = LOSS ∧ determineWinner 2 3 = LOSS := by
  decide

/-- C10: `determineWinner` is total on all uint8 pairs, and on every pair
that is not one of the six explicit win/loss combinations — including
pairs with a component outside `{1,2,3}` — it returns `DRAW` (equal pairs
through the first branch, everything else through the trailing default
branch). -/
theorem determineWinner_default (p o : Nat) (hp : p < 256) (ho : o < 256)
    (h : ¬((p = ROCK ∧ o = SCISSORS) ∨ (p = SCISSORS ∧ o = ROCK) ∨
           (p = PAPER ∧ o = ROCK) ∨ (p = ROCK ∧ o = PAPER) ∨
           (p = SCISSORS ∧ o = PAPER) ∨ (p = PAPER ∧ o = SCISSORS))) :
    determineWinner p o = DRAW := by
  unfold determineWinner
  split_ifs with h1 h2 h3 h4 h5 h6 h7
  · rfl
  · exact absurd (Or.inl h2) h
  · exact absurd (Or.inr (Or.inl h3)) h
  · exact absurd (Or.inr (Or.inr (Or.inl h4))) h
  · exact absurd (Or.inr (Or.inr (Or.inr (Or.inl h5)))) h
  · exact absurd (Or.inr (Or.inr (Or.inr (Or.inr (Or.inl h6))))) h
  · exact absurd (Or.inr (Or.inr (Or.inr (Or.inr (Or.inr h7))))) h
  · rfl

/-- Witness for C10: the out-of-range pair (0, 7) is reported as a draw. -/
theorem determineWinner_default_witness : determineWinner 0 7 = DRAW :=
  determineWinner_default 0 7 (by decide) (by decide) (by decide)

/-- C9: for every combination of entropy inputs, the generated opponent
move equals the combined entropy reduced modulo 3 plus 1 and lies in
`{1,2,3}`; the move is generated exactly once at game creation (from the
pre-increment counter) and is stored immutably — no later step changes
the `opponentMove` field of an existing game. -/
theorem opponentMove_generation :
    (∀ fhe : Fhe, ∀ timestamp prevrandao counter sender : Nat,
       generateRandomMove fhe timestamp prevrandao counter sender =
         fhe.keccakEntropy timestamp prevrandao counter sender % 3 + 1 ∧
       1 ≤ generateRandomMove fhe timestamp prevrandao counter sender ∧
       generateRandomMove fhe timestamp prevrandao counter sender ≤ 3) ∧
    (∀ fhe : Fhe, ∀ sender timestamp prevrandao encryptedMove : Nat,
       ∀ proof : List Nat, ∀ s s' : CState, ∀ gameId : Nat,
       playGame fhe sender timestamp prevrandao encryptedMove proof s = .ok (s', gameId) →
       (s'.games gameId).opponentMove =
         generateRandomMove fhe timestamp prevrandao s.gameIdCounter sender) ∧
    (∀ s s' : CState, Step s s' → ∀ gid, 1 ≤ gid → gid < s.gameIdCounter →
       (s'.games gid).opponentMove = (s.games gid).opponentMove) := by
  refine ⟨?_, ?_, ?_⟩
  · intro fhe timestamp prevrandao counter sender
    unfold generateRandomMove
    omega
  · intro fhe sender timestamp prevrandao encryptedMove proof s s' gameId h
    obtain ⟨_, rfl, rfl⟩ := playGame_ok h
    simp only [playGameNext]
    rw [Function.update_same]
    rfl
  · intro s s' hstep gid h1 h2
    cases hstep with
    | play fhe sender timestamp prevrandao encryptedMove proof s s' gameId hs0 hok =>
        obtain ⟨_, rfl, rfl⟩ := playGame_ok hok
        simp only [playGameNext]
        rw [Function.update_noteq (by omega)]
    | request fhe sender gameId s s' hs0 hok =>
        obtain ⟨hlt, _, _, _, rfl⟩ := requestResolve_ok hok
        simp only [requestResolveNext]
        by_cases hg : gid = gameId
        · subst hg
          rw [Function.update_same]
        · rw [Function.update_noteq hg]
    | resolve fhe gameId cleartexts decryptionProof s s' hok =>
        obtain ⟨hlt, _, _, _, _, _, rfl⟩ := resolveGame_ok hok
        simp only [resolveGameNext]
        by_cases hg : gid = gameId
        · subst hg
          rw [Function.update_same]
        · rw [Function.update_noteq hg]
    | cancel sender s s' hs0 hok =>
        obtain ⟨hne, _, rfl⟩ := cancelGame_ok hok
        simp only [cancelGameNext]
        by_cases hg : gid = s.playerActiveGame sender
        · subst hg
          rw [Function.update_same]
        · rw [Function.update_noteq hg]

/-- Witness for C9: on the concrete trace, the generated move is the
entropy mod 3 plus 1, is stored at creation, and survives the later
`requestResolve` step. -/
theorem opponentMove_generation_witness :
    generateRandomMove fhe0 11 13 1 7 = fhe0.keccakEntropy 11 13 1 7 % 3 + 1 ∧
    (st1.games 1).opponentMove = generateRandomMove fhe0 11 13 initialState.gameIdCounter 7 ∧
    (st2.games 1).opponentMove = (st1.games 1).opponentMove :=
  ⟨(opponentMove_generation.1 fhe0 11 13 1 7).1,
   opponentMove_generation.2.1 fhe0 7 11 13 9 [4] initialState st1 1 play_st1,
   opponentMove_generation.2.2 st1 st2
     (Step.request fhe0 7 1 st1 st2 (by decide) request_st2) 1 (by decide) (by decide)⟩

/-- C1: in every reachable state, a player has at most one non-resolved
game; the `playerActiveGame` entry is exactly the index of that game —
it equals the id of every issued non-resolved game of the player (so the
slot is set at creation and cleared precisely when that game becomes
resolved, whether by `resolveGame` or `cancelGame`), and whenever the
slot is nonzero it points to an issued, non-resolved game owned by the
player. -/
theorem at_most_one_active_game : ∀ s : CState, Reachable s → ∀ p : Nat,
    (∀ gid1 gid2, 1 ≤ gid1 → gid1 < s.gameIdCounter → 1 ≤ gid2 → gid2 < s.gameIdCounter →
       (s.games gid1).player = p → (s.games gid1).isResolved = false →
       (s.games gid2).player = p → (s.games gid2).isResolved = false → gid1 = gid2) ∧
    (∀ gid, 1 ≤ gid → gid < s.gameIdCounter → (s.games gid).player = p →
       (s.games gid).isResolved = false → s.playerActiveGame p = gid) ∧
    (s.playerActiveGame p ≠ 0 →
       1 ≤ s.playerActiveGame p ∧ s.playerActiveGame p < s.gameIdCounter ∧
       (s.games (s.playerActiveGame p)).player = p ∧
       (s.games (s.playerActiveGame p)).isResolved = false) := by
  intro s hs p
  have hI := inv_reachable hs
  refine ⟨?_, ?_, hI.active_valid p⟩
  · intro gid1 gid2 ha1 hb1 ha2 hb2 hp1 hr1 hp2 hr2
    have e1 := hI.active_of_unresolved gid1 ha1 hb1 hr1
    have e2 := hI.active_of_unresolved gid2 ha2 hb2 hr2
    rw [hp1] at e1
    rw [hp2] at e2
    rw [e1] at e2
    exact e2
  · intro gid ha hb hp1 hr
    have e := hI.active_of_unresolved gid ha hb hr
    rw [hp1] at e
    exact e

/-- Witness for C1: in the reachable state `st2`, player 7's slot points
at game 1, the unique non-resolved game of player 7. -/
theorem at_most_one_active_game_witness : st2.playerActiveGame 7 = 1 :=
  (at_most_one_active_game st2 reachable_st2 7).2.1 1
    (by decide) (by decide) (by decide) (by decide)

/-- C3: on a game in state RESOLVE_REQUESTED (issued, not resolved,
resolve requested), `resolveGame` with a proof that fails verification
reverts with `ProofVerificationFailed` — an `.error` result, so no
successor state exists and the storage `s` is untouched (the game stays
non-resolved with `resolveRequested = true` and no stats change) — and a
later `resolveGame` on the very same state with a verifying proof and an
in-range decoded move succeeds. -/
theorem resolveGame_proof_failure_retryable :
    ∀ fhe : Fhe, ∀ gameId : Nat, ∀ cleartexts decryptionProof : List Nat, ∀ s : CState,
    gameId < s.gameIdCounter →
    (s.games gameId).isResolved = false →
    (s.games gameId).resolveRequested = true →
    fhe.checkSig (s.games gameId).encryptedPlayerMove cleartexts decryptionProof = false →
    resolveGame fhe gameId cleartexts decryptionProof s = .error .ProofVerificationFailed ∧
    ∀ fhe2 : Fhe, ∀ cleartexts2 decryptionProof2 : List Nat,
      fhe2.checkSig (s.games gameId).encryptedPlayerMove cleartexts2 decryptionProof2 = true →
      ROCK ≤ fhe2.decodeU8 cleartexts2 → fhe2.decodeU8 cleartexts2 ≤ SCISSORS →
      resolveGame fhe2 gameId cleartexts2 decryptionProof2 s =
        .ok (resolveGameNext fhe2 gameId cleartexts2 s) := by
  intro fhe gameId cleartexts decryptionProof s hlt hres hreq hsig
  constructor
  · simp [resolveGame, hlt, hres, hreq, hsig]
  · intro fhe2 cleartexts2 decryptionProof2 hsig2 hm1 hm2
    simp [resolveGame, hlt, hres, hreq, hsig2, hm1, hm2]

/-- Witness for C3: on the concrete trace state `st2`, the empty proof
fails verification and the call reverts; the nonempty proof verifies and
the same game then resolves. -/
theorem resolveGame_proof_failure_retryable_witness :
    resolveGame fhe0 1 [1] [] st2 = .error .ProofVerificationFailed ∧
    resolveGame fhe0 1 [1] [9] st2 = .ok (resolveGameNext fhe0 1 [1] st2) :=
  have h := resolveGame_proof_failure_retryable fhe0 1 [1] [] st2
    (by decide) (by decide) (by decide) (by decide)
  ⟨h.1, h.2 fhe0 [1] [9] (by decide) (by decide) (by decide)⟩

/-- C4 counterexample: the reachable state `st2` contains game 1 with
`resolveRequested = true` as player 7's active game, and `cancelGame`
nevertheless succeeds — it does not fail as the claim requires. -/
theorem cancelGame_after_requestResolve_succeeds :
    Reachable st2 ∧ (st2.games 1).resolveRequested = true ∧
    st2.playerActiveGame 7 = 1 ∧
    cancelGame 7 st2 = .ok (cancelGameNext 7 st2) :=
  ⟨reachable_st2, by decide, by decide, rfl⟩

/-- C4 amended: `cancelGame` checks only that the sender has an active
game and that it is not resolved; with no active game it fails
`NoActiveGame`, and on any reachable state it succeeds on the active
game even when `resolveRequested` is already true. -/
theorem cancelGame_spec :
    (∀ sender : Nat, ∀ s : CState, s.playerActiveGame sender = 0 →
       cancelGame sender s = .error .NoActiveGameToCancel) ∧
    (∀ sender : Nat, ∀ s : CState, Reachable s → s.playerActiveGame sender ≠ 0 →
       cancelGame sender s = .ok (cancelGameNext sender s)) := by
  constructor
  · intro sender s h
    simp [cancelGame, h]
  · intro sender s hs hne
    have hres := ((inv_reachable hs).active_valid sender hne).2.2.2
    simp [cancelGame, hne, hres]

/-- Witness for C4 (amended): with no active game the cancel fails; in
`st2` (player 7's game has `resolveRequested = true`) the cancel
succeeds. -/
theorem cancelGame_spec_witness :
    cancelGame 7 initialState = .error .NoActiveGameToCancel ∧
    cancelGame 7 st2 = .ok (cancelGameNext 7 st2) :=
  ⟨cancelGame_spec.1 7 initialState rfl,
   cancelGame_spec.2 7 st2 reachable_st2 (by decide)⟩

/-- C5 counterexample: id 0 is never issued (`gameIdCounter` starts at 1
and `playGame` returns the pre-increment counter, always ≥ 1), yet
`getGame 0` succeeds on the freshly-constructed contract, returning the
all-zero record instead of failing `GameNotFound`. -/
theorem getGame_zero_succeeds :
    getGame initialState 0 = .ok (0, 0, 0, false, 0, 0, false) := rfl

/-- C5 amended: `getGame gameId` fails with `GameNotFound` exactly when
`gameId ≥ gameIdCounter`; never-issued ids at or above the counter fail,
but id 0 — also never issued — passes the existence check and returns
the default record. -/
theorem getGame_spec : ∀ s : CState, ∀ gameId : Nat,
    getGame s gameId = .error .GameDoesNotExist ↔ s.gameIdCounter ≤ gameId := by
  intro s gameId
  unfold getGame
  split
  · rename_i hlt
    constructor
    · intro h
      exact absurd h (by simp)
    · intro h
      exact absurd hlt (by omega)
  · rename_i hge
    constructor
    · intro _
      omega
    · intro _
      rfl

lemma counter_mono_step {s s' : CState} (h : Step s s') :
    s.gameIdCounter ≤ s'.gameIdCounter := by
  cases h with
  | play fhe sender timestamp prevrandao encryptedMove proof s s' gameId hs0 hok =>
      obtain ⟨_, rfl, _⟩ := playGame_ok hok
      simp only [playGameNext]
      omega
  | request fhe sender gameId s s' hs0 hok =>
      obtain ⟨_, _, _, _, rfl⟩ := requestResolve_ok hok
      simp [requestResolveNext]
  | resolve fhe gameId cleartexts decryptionProof s s' hok =>
      obtain ⟨_, _, _, _, _, _, rfl⟩ := resolveGame_ok hok
      simp [resolveGameNext]
  | cancel sender s s' hs0 hok =>
      obtain ⟨_, _, rfl⟩ := cancelGame_ok hok
      simp [cancelGameNext]

lemma counter_mono_star {s s' : CState} (h : Relation.ReflTransGen Step s s') :
    s.gameIdCounter ≤ s'.gameIdCounter := by
  induction h with
  | refl => exact le_rfl
  | tail _ hstep ih => exact le_trans ih (counter_mono_step hstep)

/-- C6: once `resolveGame` has succeeded on a game, every later
`resolveGame` on the same game fails with `AlreadyResolved` (an `.error`,
hence no state change), and across both calls the player's stats are
bumped exactly once: `totalGames` by one and the sum
`wins + losses + draws` by one, with all other players' stats
untouched. -/
theorem resolveGame_twice :
    ∀ fhe : Fhe, ∀ gameId : Nat, ∀ cleartexts decryptionProof : List Nat, ∀ s s' : CState,
    resolveGame fhe gameId cleartexts decryptionProof s = .ok s' →
    (∀ fhe2 : Fhe, ∀ cleartexts2 decryptionProof2 : List Nat,
       resolveGame fhe2 gameId cleartexts2 decryptionProof2 s' = .error .GameAlreadyResolved) ∧
    (s'.playerStats (s.games gameId).player).totalGames =
      (s.playerStats (s.games gameId).player).totalGames + 1 ∧
    (s'.playerStats (s.games gameId).player).wins +
      (s'.playerStats (s.games gameId).player).losses +
      (s'.playerStats (s.games gameId).player).draws =
      (s.playerStats (s.games gameId).player).wins +
        (s.playerStats (s.games gameId).player).losses +
        (s.playerStats (s.games gameId).player).draws + 1 ∧
    (∀ p, p ≠ (s.games gameId).player → s'.playerStats p = s.playerStats p) := by
  intro fhe gameId cleartexts decryptionProof s s' h
  obtain ⟨hlt, hres, hreq, hsig, hm1, hm2, rfl⟩ := resolveGame_ok h
  refine ⟨?_, ?_, ?_, ?_⟩
  · intro fhe2 cleartexts2 decryptionProof2
    simp [resolveGame, resolveGameNext, Function.update_same, hlt]
  · simp only [resolveGameNext, Function.update_same]
    unfold recordStats
    split_ifs <;> rfl
  · simp only [resolveGameNext, Function.update_same]
    unfold recordStats
    split_ifs <;> dsimp <;> omega
  · intro p hp
    simp only [resolveGameNext]
    rw [Function.update_noteq hp]

/-- Witness for C6: resolving game 1 a second time on `st3` fails with
`AlreadyResolved`, and player 7's `totalGames` moved from 0 to 1 in the
single successful resolution. -/
theorem resolveGame_twice_witness :
    resolveGame fhe0 1 [1] [9] st3 = .error .GameAlreadyResolved ∧
    (st3.playerStats (st2.games 1).player).totalGames =
      (st2.playerStats (st2.games 1).player).totalGames + 1 :=
  have h := resolveGame_twice fhe0 1 [1] [9] st2 st3 resolve_st3
  ⟨h.1 fhe0 [1] [9], h.2.1⟩

/-- C7: a successful `cancelGame` marks the game resolved with
`result = DRAW`, clears the player's active-game slot, leaves
`revealedPlayerMove` unset (0), and changes no `PlayerStats` field of any
player — unlike a normal draw resolution, which increments both `draws`
and `totalGames`. -/
theorem cancelGame_frame :
    (∀ sender : Nat, ∀ s s' : CState, Reachable s → cancelGame sender s = .ok s' →
       (s'.games (s.playerActiveGame sender)).result = DRAW ∧
       (s'.games (s.playerActiveGame sender)).isResolved = true ∧
       s'.playerActiveGame sender = 0 ∧
       (s'.games (s.playerActiveGame sender)).revealedPlayerMove = 0 ∧
       s'.playerStats = s.playerStats) ∧
    (∀ fhe : Fhe, ∀ gameId : Nat, ∀ cleartexts decryptionProof : List Nat, ∀ s s' : CState,
       resolveGame fhe gameId cleartexts decryptionProof s = .ok s' →
       determineWinner (fhe.decodeU8 cleartexts) (s.games gameId).opponentMove = DRAW →
       (s'.playerStats (s.games gameId).player).draws =
         (s.playerStats (s.games gameId).player).draws + 1 ∧
       (s'.playerStats (s.games gameId).player).totalGames =
         (s.playerStats (s.games gameId).player).totalGames + 1) := by
  constructor
  · intro sender s s' hs h
    obtain ⟨hne, hres, rfl⟩ := cancelGame_ok h
    refine ⟨?_, ?_, ?_, ?_, rfl⟩
    · simp only [cancelGameNext]
      rw [Function.update_same]
    · simp only [cancelGameNext]
      rw [Function.update_same]
    · simp only [cancelGameNext]
      rw [Function.update_same]
    · simp only [cancelGameNext]
      rw [Function.update_same]
      exact (inv_reachable hs).unrevealed _ hres
  · intro fhe gameId cleartexts decryptionProof s s' h hdraw
    obtain ⟨hlt, hres, hreq, hsig, hm1, hm2, rfl⟩ := resolveGame_ok h
    simp only [resolveGameNext, Function.update_same]
    rw [hdraw]
    unfold recordStats
    refine ⟨?_, ?_⟩ <;> simp [DRAW, WIN, LOSS]

/-- Witness for C7: cancelling player 7's game in `st1` records a draw
result, leaves the stats untouched; a genuine draw resolution of `st2`
(cleartext SCISSORS against opponent SCISSORS) increments `draws`. -/
theorem cancelGame_frame_witness :
    ((cancelGameNext 7 st1).games (st1.playerActiveGame 7)).result = DRAW ∧
    (cancelGameNext 7 st1).playerStats = st1.playerStats ∧
    ((resolveGameNext fhe0 1 [3] st2).playerStats (st2.games 1).player).draws =
      (st2.playerStats (st2.games 1).player).draws + 1 :=
  have h1 := cancelGame_frame.1 7 st1 (cancelGameNext 7 st1) reachable_st1 rfl
  have h2 := cancelGame_frame.2 fhe0 1 [3] [9] st2 (resolveGameNext fhe0 1 [3] st2)
    rfl (by decide)
  ⟨h1.1, h1.2.2.2.2, h2.1⟩

/-- C8: a successful `playGame` returns the current counter as the fresh
id and bumps the counter by one, touching no other game slot; every step
keeps the counter non-decreasing and keeps every already-issued game in
existence with its identity fields intact; and across any two game
creations separated by any number of steps, the later id is strictly
larger — so no id is ever assigned twice. -/
theorem gameId_fresh_monotone :
    (∀ fhe : Fhe, ∀ sender timestamp prevrandao encryptedMove : Nat, ∀ proof : List Nat,
       ∀ s s' : CState, ∀ gameId : Nat,
       playGame fhe sender timestamp prevrandao encryptedMove proof s = .ok (s', gameId) →
       gameId = s.gameIdCounter ∧ s'.gameIdCounter = s.gameIdCounter + 1 ∧
       ∀ gid, gid ≠ gameId → s'.games gid = s.games gid) ∧
    (∀ s s' : CState, Step s s' → ∀ gid, 1 ≤ gid → gid < s.gameIdCounter →
       gid < s'.gameIdCounter ∧ (s'.games gid).player = (s.games gid).player ∧
       (s'.games gid).createdAt = (s.games gid).createdAt) ∧
    (∀ fhe : Fhe, ∀ sender timestamp prevrandao encryptedMove : Nat, ∀ proof : List Nat,
       ∀ s s1 : CState, ∀ g1 : Nat,
       playGame fhe sender timestamp prevrandao encryptedMove proof s = .ok (s1, g1) →
       ∀ s2 : CState, Relation.ReflTransGen Step s1 s2 →
       ∀ fhe2 : Fhe, ∀ sender2 t2 pr2 em2 : Nat, ∀ proof2 : List Nat, ∀ s3 : CState,
       ∀ g2 : Nat,
       playGame fhe2 sender2 t2 pr2 em2 proof2 s2 = .ok (s3, g2) → g1 < g2) := by
  refine ⟨?_, ?_, ?_⟩
  · intro fhe sender timestamp prevrandao encryptedMove proof s s' gameId h
    obtain ⟨hact, rfl, rfl⟩ := playGame_ok h
    refine ⟨rfl, rfl, ?_⟩
    intro gid hgid
    simp only [playGameNext]
    rw [Function.update_noteq hgid]
  · intro s s' hstep gid h1 h2
    cases hstep with
    | play fhe sender timestamp prevrandao encryptedMove proof s s' gameId hs0 hok =>
        obtain ⟨_, rfl, rfl⟩ := playGame_ok hok
        simp only [playGameNext]
        rw [Function.update_noteq (by omega)]
        exact ⟨by omega, rfl, rfl⟩
    | request fhe sender gameId s s' hs0 hok =>
        obtain ⟨hlt, _, _, _, rfl⟩ := requestResolve_ok hok
        simp only [requestResolveNext]
        by_cases hg : gid = gameId
        · subst hg
          rw [Function.update_same]
          exact ⟨h2, rfl, rfl⟩
        · rw [Function.update_noteq hg]
          exact ⟨h2, rfl, rfl⟩
    | resolve fhe gameId cleartexts decryptionProof s s' hok =>
        obtain ⟨hlt, _, _, _, _, _, rfl⟩ := resolveGame_ok hok
        simp only [resolveGameNext]
        by_cases hg : gid = gameId
        · subst hg
          rw [Function.update_same]
          exact ⟨h2, rfl, rfl⟩
        · rw [Function.update_noteq hg]
          exact ⟨h2, rfl, rfl⟩
    | cancel sender s s' hs0 hok =>
        obtain ⟨hne, _, rfl⟩ := cancelGame_ok hok
        simp only [cancelGameNext]
        by_cases hg : gid = s.playerActiveGame sender
        · subst hg
          rw [Function.update_same]
          exact ⟨h2, rfl, rfl⟩
        · rw [Function.update_noteq hg]
          exact ⟨h2, rfl, rfl⟩
  · intro fhe sender timestamp prevrandao encryptedMove proof s s1 g1 h1 s2 hstar
      fhe2 sender2 t2 pr2 em2 proof2 s3 g2 h2
    obtain ⟨_, rfl, rfl⟩ := playGame_ok h1
    obtain ⟨_, _, rfl⟩ := playGame_ok h2
    have hmono := counter_mono_star hstar
    simp only [playGameNext] at hmono
    omega

/-- Witness for C8: the first creation gets id 1 = the initial counter and
bumps it to 2; a second creation by another player gets the strictly
larger id 2. -/
theorem gameId_fresh_monotone_witness :
    (1 : Nat) = initialState.gameIdCounter ∧
    st1.gameIdCounter = initialState.gameIdCounter + 1 ∧
    (1 : Nat) < 2 :=
  have h1 := gameId_fresh_monotone.1 fhe0 7 11 13 9 [4] initialState st1 1 play_st1
  have h3 := gameId_fresh_monotone.2.2 fhe0 7 11 13 9 [4] initialState st1 1 play_st1
    st1 .refl fhe0 8 0 0 0 [] (playGameNext fhe0 8 0 0 0 [] st1) 2 rfl
  ⟨h1.1, h1.2.1, h3⟩

end RPS
